import Mathlib

/-!
Shallow embedding of the M5wire driver (M5wire.h / M5wire.cpp).

The driver is a register-access layer for two I2C peripheral units:
`M5w_Unit` is the shared transport (device address, error codes, LED
inter-write delay gate), `M5w_8angle` adds the potentiometer hook state
machine, and `M5w_8encoder` adds the counter-reset bitmask protocol and
button decoding.

Modelling conventions:
- machine integers are `Nat` with explicit `% 256` / `% 4294967296`
  wherever the C++ types (`uint8_t`, `uint32_t`) make overflow matter;
- the external `TwoWire` bus is an oracle: a `WireOutcome` records, for
  one read transaction, the `endTransmission` status, whether
  `requestFrom` succeeded, and the bytes subsequent `read()` calls yield;
- time is explicit: `Env.time` is the monotonic microsecond clock, and a
  blocking `delayMicroseconds` advances it (it delays the caller);
- framed write transactions are reified as `Txn` values (target address,
  start register, payload) so that properties about what reaches the bus
  can be stated.
-/

/-- Monotonic clock environment: `time` is the caller's current absolute
time in microseconds. Blocking delays advance it. -/
structure Env where
  time : Nat
deriving DecidableEq

/-- Model of `micros()`: the 32-bit wrapping microsecond counter. -/
def micros (e : Env) : Nat := e.time % 4294967296

/-- One framed I2C write transaction as it appears on the bus:
`beginTransmission(target); write(reg); write(payload); endTransmission()`. -/
structure Txn where
  target : Nat
  reg : Nat
  payload : List Nat
deriving DecidableEq

/-- Behaviour of the external bus for one read transaction: the status
returned by `endTransmission` after sending the register address, whether
`requestFrom` reported data available, and the successive bytes that
`read()` returns. -/
structure WireOutcome where
  endCode : Nat
  reqOk : Bool
  data : Nat → Nat

/-- State of `M5w_Unit`: device address, the `begin()` liveness status
`error`, the last operation status `endError`, the timestamp of the most
recent LED write, and the configured minimum LED write spacing. -/
structure M5wUnit where
  addr : Nat
  error : Nat
  endError : Nat
  lastLEDtime : Nat
  LEDdelay : Nat
deriving DecidableEq

/-- Model of `M5w_Unit::addDelayIfNeeded`: compute `now - lastLEDtime` in
32-bit wrapping arithmetic; if the elapsed time is below `LEDdelay`, block
the caller (advance the clock) for the remaining difference. -/
def addDelayIfNeeded (u : M5wUnit) (e : Env) : Env :=
  let now := micros e
  let diff := (now + 4294967296 - u.lastLEDtime % 4294967296) % 4294967296
  if diff < u.LEDdelay then { time := e.time + (u.LEDdelay - diff) } else e

/-- Result of a `readBytes` call: the updated unit, the clock after any
gate delay, the returned status, the caller's buffer after the call, the
absolute time at which the bus transaction was dispatched (right after
the delay gate), and the register address byte that was sent. -/
structure ReadResult where
  unit : M5wUnit
  env : Env
  status : Nat
  buf : List Nat
  dispatchTime : Nat
  sentReg : Nat

/-- Model of `M5w_Unit::readBytes`: apply the delay gate, send the
register address; if that transaction succeeds and `requestFrom` yields
data, copy the `n` received bytes into the buffer and return 0; if the
data request is refused set the status to 10; if the address write fails
add 100 to the transport code (8-bit arithmetic, as `endError` is
`uint8_t`). -/
def readBytes (u : M5wUnit) (e : Env) (o : WireOutcome) (reg : Nat)
    (buf : List Nat) (n : Nat) : ReadResult :=
  let e1 := addDelayIfNeeded u e
  if o.endCode % 256 = 0 then
    if o.reqOk then
      { unit := { u with endError := 0 }, env := e1, status := 0,
        buf := (List.range n).map (fun i => o.data i % 256),
        dispatchTime := e1.time, sentReg := reg % 256 }
    else
      { unit := { u with endError := 10 }, env := e1, status := 10,
        buf := buf, dispatchTime := e1.time, sentReg := reg % 256 }
  else
    { unit := { u with endError := (o.endCode % 256 + 100) % 256 }, env := e1,
      status := (o.endCode % 256 + 100) % 256,
      buf := buf, dispatchTime := e1.time, sentReg := reg % 256 }

/-- Model of `M5w_Unit::getByte`: one-byte read; on a non-zero status the
(uninitialised) result variable is overwritten with the sentinel 0xAA,
otherwise the received byte is returned. The initial buffer `[0]` stands
for the uninitialised local; it is never exposed on the success path. -/
def getByte (u : M5wUnit) (e : Env) (o : WireOutcome) (reg : Nat) : Nat :=
  let r := readBytes u e o reg [0] 1
  if r.status ≠ 0 then 0xAA else r.buf.getD 0 0

/-- Two's-complement reading of a natural number as an `int32_t`. -/
def toSigned32 (n : Nat) : Int :=
  if n % 4294967296 < 2147483648 then ((n % 4294967296 : Nat) : Int)
  else ((n % 4294967296 : Nat) : Int) - 4294967296

/-- Model of `M5w_Unit::getLong`: four-byte little-endian read into an
`int32_t`; on a non-zero status the sentinel 0xDEADBEEF (as a 32-bit
value) is returned instead. -/
def getLong (u : M5wUnit) (e : Env) (o : WireOutcome) (reg : Nat) : Int :=
  let r := readBytes u e o reg [0, 0, 0, 0] 4
  if r.status ≠ 0 then toSigned32 0xDEADBEEF
  else toSigned32 (r.buf.getD 0 0 + 256 * r.buf.getD 1 0
    + 65536 * r.buf.getD 2 0 + 16777216 * r.buf.getD 3 0)

/-- Result of a `writeBytes` call: updated unit, clock after the gate
delay, the framed transactions issued on the bus, and the dispatch time. -/
structure WriteResult where
  unit : M5wUnit
  env : Env
  txns : List Txn
  dispatchTime : Nat

/-- Model of `M5w_Unit::writeBytes`: apply the delay gate, then send the
register address byte followed by the `n` payload bytes as one framed
transaction, recording the `endTransmission` status. The bus outcome of a
write is a plain status byte `endCode`. -/
def writeBytes (u : M5wUnit) (e : Env) (endCode : Nat) (reg : Nat)
    (value : List Nat) (n : Nat) : WriteResult :=
  let e1 := addDelayIfNeeded u e
  { unit := { u with endError := endCode % 256 }, env := e1,
    txns := [⟨u.addr % 256, reg % 256, (value.take n).map (fun b => b % 256)⟩],
    dispatchTime := e1.time }

/-- Model of `M5w_Unit::setAddress`: write the new address byte to
register 0xFF (the transaction targets the currently stored address),
then unconditionally overwrite the locally stored address. -/
def setAddress (u : M5wUnit) (e : Env) (endCode : Nat) (newAddr : Nat) : WriteResult :=
  let w := writeBytes u e endCode 0xFF [newAddr % 256] 1
  { w with unit := { w.unit with addr := newAddr % 256 } }

/-- Hook filter states of an angle channel, as in
`enum hook_state_values` of `M5w_8angle`. -/
inductive HookState where
  | unhooked
  | under
  | over
  | hooking
deriving DecidableEq

/-- Full-scale constant `POTMAX` of `M5w_8angle`. -/
def POTMAX : Nat := 0xFFC

/-- State of `M5w_8angle`: the transport plus the per-channel stored
values and hook states. -/
structure M5w8angle where
  unit : M5wUnit
  potValues : Fin 8 → Nat
  hooks : Fin 8 → HookState

/-- Potentiometer decode line of `M5w_8angle::getPot16`:
`value = value > POTMAX ? 0 : POTMAX - value`. -/
def potDecode (raw : Nat) : Nat := if raw > POTMAX then 0 else POTMAX - raw

/-- Raw 16-bit value assembled from the two bytes a read outcome
delivers (little-endian, as the C++ code reads them into a `uint16_t`). -/
def rawOf (o : WireOutcome) : Nat := o.data 0 % 256 + 256 * (o.data 1 % 256)

/-- The `switch (hooks[ch])` block of `M5w_8angle::getPot16`, acting on
the stored value and hook state of one channel given the freshly decoded
`value`; returns the new stored value and hook state. -/
def hookSwitch (stored : Nat) (hk : HookState) (value : Nat) : Nat × HookState :=
  match hk with
  | .unhooked => (value, .unhooked)
  | .hooking =>
      if value < stored then (stored, .under)
      else if value > stored then (stored, .over)
      else (value, .unhooked)
  | .under => if value ≥ stored then (value, .unhooked) else (stored, .under)
  | .over => if value ≤ stored then (value, .unhooked) else (stored, .over)

/-- Little-endian byte image of a `uint16_t`, for the initial contents of
the local `value` variable in `getPot16`. -/
def toBytes2 (v : Nat) : List Nat := [v % 256, v / 256 % 256]

/-- Model of `M5w_8angle::getPot16`: read two bytes from register
`0x0 + ch*2`; on success decode (sense inversion, clamp above `POTMAX`)
and run the hook switch, then return `potValues[ch]`; on failure leave
all channel state untouched and return the previous `potValues[ch]`. -/
def getPot16 (a : M5w8angle) (e : Env) (o : WireOutcome) (ch : Fin 8) :
    M5w8angle × Env × Nat :=
  let r := readBytes a.unit e o (0x0 + ch.val * 2) (toBytes2 (a.potValues ch)) 2
  if r.status = 0 then
    let raw := r.buf.getD 0 0 + 256 * r.buf.getD 1 0
    let value := potDecode raw
    let step := hookSwitch (a.potValues ch) (a.hooks ch) value
    let a1 : M5w8angle :=
      { unit := r.unit,
        potValues := Function.update a.potValues ch step.1,
        hooks := Function.update a.hooks ch step.2 }
    (a1, r.env, a1.potValues ch)
  else
    ({ a with unit := r.unit }, r.env, a.potValues ch)

/-- Model of `M5w_8angle::getLast`: return `potValues[ch]` without
touching the bus. -/
def getLast (a : M5w8angle) (ch : Fin 8) : Nat := a.potValues ch

/-- Model of `M5w_8angle::setHook`: force the channel into the `hooking`
state and store the given (`uint16_t`) value. -/
def setHook (a : M5w8angle) (ch : Fin 8) (value : Nat) : M5w8angle :=
  { a with hooks := Function.update a.hooks ch .hooking,
           potValues := Function.update a.potValues ch (value % 65536) }

/-- Little-endian byte image of a `uint32_t` colour word. -/
def colourBytes4 (c : Nat) : List Nat :=
  [c % 256, c / 256 % 256, c / 65536 % 256, c / 16777216 % 256]

/-- Model of `M5w_8angle::writeLED`: write the 4 colour bytes to register
`led*4 + 0x30` through the gated `writeBytes`, then record `micros()` as
the last LED write time. -/
def writeLED (a : M5w8angle) (e : Env) (endCode : Nat) (led : Nat) (colour : Nat) :
    M5w8angle × WriteResult :=
  let w := writeBytes a.unit e endCode (led * 4 + 0x30) (colourBytes4 colour) 4
  ({ a with unit := { w.unit with lastLEDtime := micros w.env } }, w)

/-- The first loop of `M5w_8encoder::resetCounts`: shift trailing zero
bits out of the mask, incrementing the register address once per shifted
bit; returns the remaining mask and the start register. The loop runs on
an 8-bit mask, so it iterates at most 8 times; the explicit fuel (always
passed as 8) keeps the recursion structural and is never exhausted for a
non-zero mask below 256. -/
def stripTrailingZeros : Nat → Nat → Nat → Nat × Nat
  | 0, mask, reg => (mask, reg)
  | fuel + 1, mask, reg =>
      if mask % 2 = 0 then stripTrailingZeros fuel (mask / 2) (reg + 1)
      else (mask, reg)

/-- The second loop of `M5w_8encoder::resetCounts`: emit one byte per
remaining bit position, 1 if the bit is set and 0 otherwise, shifting the
mask down until it is exhausted. Fuel as in `stripTrailingZeros`: an
8-bit mask is exhausted within 8 shifts. -/
def buildChList : Nat → Nat → List Nat
  | 0, _ => []
  | fuel + 1, mask =>
      if mask ≠ 0 then (mask % 2) :: buildChList fuel (mask / 2)
      else []

/-- Number of trailing zero bits of an 8-bit value (the quantity the
first loop of `resetCounts` counts register increments by). -/
def trailingZeros8 : Nat → Nat → Nat
  | 0, _ => 0
  | fuel + 1, mask =>
      if mask % 2 = 0 ∧ mask ≠ 0 then trailingZeros8 fuel (mask / 2) + 1
      else 0

/-- Model of `M5w_8encoder::resetCounts`: for a non-zero 8-bit mask,
compute the start register from 0x40 by counting trailing zeros, build
the flag byte list, and issue it as one framed write; for a zero mask do
nothing at all. -/
def resetCounts (u : M5wUnit) (e : Env) (endCode : Nat) (mask : Nat) : WriteResult :=
  if mask % 256 ≠ 0 then
    let s := stripTrailingZeros 8 (mask % 256) 0x40
    let chList := buildChList 8 s.1
    writeBytes u e endCode s.2 chList chList.length
  else
    { unit := u, env := e, txns := [], dispatchTime := e.time }

/-- Length of the flag byte sequence `resetCounts` sends for a given
mask (one byte per bit position from the lowest through the highest set
bit). -/
def resetPayloadLen (mask : Nat) : Nat :=
  (buildChList 8 (stripTrailingZeros 8 (mask % 256) 0x40).1).length

/-- Model of `M5w_8encoder::resetCount`: single-channel reset delegating
to the bitmask form with one bit set (`1 << ch`, truncated to 8 bits at
the `uint8_t` parameter). -/
def resetCount (u : M5wUnit) (e : Env) (endCode : Nat) (ch : Nat) : WriteResult :=
  resetCounts u e endCode ((1 <<< ch) % 256)

/-- Concrete unit state for witnesses: encoder default address 0x41,
clean error state, `lastLEDtime` zero-initialised, default LED spacing. -/
def u0 : M5wUnit := ⟨0x41, 0, 0, 0, 80⟩

/-- Concrete clock for witnesses. -/
def e0 : Env := ⟨0⟩

/-- Concrete failing bus outcome for witnesses: the address write ends
with transport code 2 and no data is available. -/
def oT : WireOutcome := ⟨2, false, fun _ => 0⟩

/-- Bus outcome presented by a healthy device with byte-register file
`regs`: the address write succeeds, data is available, and successive
`read()` calls walk the register file from `reg`. -/
def successOutcome (regs : Nat → Nat) (reg : Nat) : WireOutcome :=
  { endCode := 0, reqOk := true, data := fun i => regs ((reg + i) % 256) }

/-- `getByte` against a healthy device with register file `regs`. -/
def getByteFrom (u : M5wUnit) (e : Env) (regs : Nat → Nat) (reg : Nat) : Nat :=
  getByte u e (successOutcome regs reg) reg

/-- Model of `M5w_8encoder::getCount`: 4-byte signed read at `0x00 + 4*ch`. -/
def getCount (u : M5wUnit) (e : Env) (o : WireOutcome) (ch : Nat) : Int :=
  getLong u e o (0x00 + 4 * ch)

/-- Model of `M5w_8encoder::getIncrement`: 4-byte signed read at `0x20 + 4*ch`. -/
def getIncrement (u : M5wUnit) (e : Env) (o : WireOutcome) (ch : Nat) : Int :=
  getLong u e o (0x20 + 4 * ch)

/-- The `for (int i=7;i>=0;i--)` loop of `M5w_8encoder::getButton` in its
bitmap branch: each of the remaining iterations shifts the 8-bit
accumulator left and ORs in the (inverted) state of the byte read at
`0x50 + ch` — the register address uses `ch`, exactly as the source
does, not the loop counter. -/
def getButtonLoop (u : M5wUnit) (e : Env) (regs : Nat → Nat) (ch : Int)
    (ret : Nat) : Nat → Nat
  | 0 => ret
  | k + 1 =>
      getButtonLoop u e regs ch
        ((ret * 2 + (if getByteFrom u e regs ((0x50 + ch).emod 256).toNat = 0
          then 1 else 0)) % 256) k

/-- Model of `M5w_8encoder::getButton` against a healthy device: for
`ch ≥ 0` the inverted single button byte at `0x50 + ch`; for negative
`ch` the 8-iteration bitmap assembly loop (`int8_t` arithmetic on the
register address is modelled by `emod 256` at the `uint8_t` parameter). -/
def getButton (u : M5wUnit) (e : Env) (regs : Nat → Nat) (ch : Int) : Nat :=
  if ch ≥ 0 then
    if getByteFrom u e regs ((0x50 + ch).emod 256).toNat = 0 then 1 else 0
  else
    getButtonLoop u e regs ch 0 8

/-- Model of `M5w_8encoder::getButtons`: alias for `getButton(-1)`. -/
def getButtons (u : M5wUnit) (e : Env) (regs : Nat → Nat) : Nat :=
  getButton u e regs (-1)

/-- Model of the simulated target device used by the address round-trip
property: a single device on the bus with a byte-register file, which
reflects a write of byte `b` to register 0xFF by also adopting `b` as its
bus address. Transactions addressed to a different target do not reach
it. -/
structure SimDevice where
  address : Nat
  regs : Nat → Nat

/-- Apply one framed write transaction to the simulated device. -/
def applyTxn (d : SimDevice) (t : Txn) : SimDevice :=
  if t.target = d.address then
    let regs1 : Nat → Nat := fun r =>
      if t.reg ≤ r ∧ r < t.reg + t.payload.length then t.payload.getD (r - t.reg) 0
      else d.regs r
    { address := if t.reg ≤ 0xFF ∧ 0xFF < t.reg + t.payload.length
        then regs1 0xFF else d.address,
      regs := regs1 }
  else d

/-- Read outcome the simulated device presents for a read transaction
addressed to `target` at register `reg`. -/
def deviceOutcome (d : SimDevice) (target : Nat) (reg : Nat) : WireOutcome :=
  if target = d.address then
    { endCode := 0, reqOk := true, data := fun i => d.regs (reg + i) }
  else
    { endCode := 2, reqOk := false, data := fun _ => 0 }

/-- Model of `M5w_Unit::getAddress` (`getByte(0xFF)`) executed against
the simulated device. -/
def getAddressFrom (u : M5wUnit) (e : Env) (d : SimDevice) : Nat :=
  getByte u e (deviceOutcome d u.addr 0xFF) 0xFF

/-- C3: `readBytes` returns 0 exactly when the register-address write and
the subsequent data request both succeed (and then the buffer holds the
`n` received bytes in order); it returns 10 when the address write
succeeds but the data request is refused; and for a raw transport code in
the spec's 1..99 range it returns the code plus 100, so transport-failure
codes (100 and above) and the no-data code 10 occupy disjoint ranges. -/
theorem readBytes_status_spec (u : M5wUnit) (e : Env) (o : WireOutcome)
    (reg : Nat) (buf : List Nat) (n : Nat) :
    (o.endCode % 256 < 100 →
      ((readBytes u e o reg buf n).status = 0 ↔
        (o.endCode % 256 = 0 ∧ o.reqOk = true)))
  ∧ (o.endCode % 256 = 0 → o.reqOk = true →
      (readBytes u e o reg buf n).buf
        = (List.range n).map (fun i => o.data i % 256))
  ∧ (o.endCode % 256 = 0 → o.reqOk = false →
      (readBytes u e o reg buf n).status = 10)
  ∧ (0 < o.endCode % 256 → o.endCode % 256 < 100 →
      (readBytes u e o reg buf n).status = o.endCode % 256 + 100
    ∧ 100 ≤ (readBytes u e o reg buf n).status
    ∧ (readBytes u e o reg buf n).status ≠ 10
    ∧ (readBytes u e o reg buf n).status ≠ 0) := by
  unfold readBytes
  by_cases h1 : o.endCode % 256 = 0 <;> by_cases h2 : o.reqOk <;>
    simp [h1, h2] <;> omega

/-- Witness for C3: transport code 2 on the address write yields status
102, distinct from the no-data code 10 and from success. -/
theorem readBytes_status_spec_witness :
    (readBytes u0 e0 oT 0x10 [] 2).status = oT.endCode % 256 + 100
  ∧ (readBytes u0 e0 oT 0x10 [] 2).status ≠ 10
  ∧ (readBytes u0 e0 oT 0x10 [] 2).status ≠ 0 := by
  have h := (readBytes_status_spec u0 e0 oT 0x10 [] 2).2.2.2
    (by decide) (by decide)
  exact ⟨h.1, h.2.2.1, h.2.2.2⟩

/-- C9: whenever the underlying read reports a non-zero status, `getByte`
returns the sentinel 0xAA and `getLong` the sentinel 0xDEADBEEF as a
32-bit value; on a genuinely successful transaction each returns the
bytes received from the device. -/
theorem sentinel_on_failure (u : M5wUnit) (e : Env) (o : WireOutcome) (reg : Nat) :
    ((readBytes u e o reg [0] 1).status ≠ 0 → getByte u e o reg = 0xAA)
  ∧ ((readBytes u e o reg [0, 0, 0, 0] 4).status ≠ 0 →
      (getLong u e o reg) % 4294967296 = 0xDEADBEEF)
  ∧ (o.endCode % 256 = 0 → o.reqOk = true →
      getByte u e o reg = o.data 0 % 256
    ∧ getLong u e o reg
        = toSigned32 (o.data 0 % 256 + 256 * (o.data 1 % 256)
            + 65536 * (o.data 2 % 256) + 16777216 * (o.data 3 % 256))) := by
  refine ⟨?_, ?_, ?_⟩
  · intro h
    simp [getByte, h]
  · intro h
    have : getLong u e o reg = toSigned32 0xDEADBEEF := by
      simp [getLong, h]
    rw [this]
    decide
  · intro h1 h2
    have hb1 : (List.range 1).map (fun i => o.data i % 256) = [o.data 0 % 256] := rfl
    have hb4 : (List.range 4).map (fun i => o.data i % 256)
        = [o.data 0 % 256, o.data 1 % 256, o.data 2 % 256, o.data 3 % 256] := rfl
    constructor
    · simp [getByte, readBytes, h1, h2]
    · simp [getLong, readBytes, h1, h2]

/-- Witness for C9: a refused transaction produces both sentinels. -/
theorem sentinel_on_failure_witness :
    getByte u0 e0 oT 0x10 = 0xAA
  ∧ (getLong u0 e0 oT 0x10) % 4294967296 = 0xDEADBEEF := by
  have h := sentinel_on_failure u0 e0 oT 0x10
  exact ⟨h.1 (by decide), h.2.1 (by decide)⟩

/-- Helper: on a successful read, `getPot16` runs the hook switch on the
decoded value and updates only channel `ch` accordingly; the returned
value is the post-switch stored value. -/
theorem getPot16_success_proj (a : M5w8angle) (e : Env) (o : WireOutcome) (ch : Fin 8)
    (h1 : o.endCode % 256 = 0) (h2 : o.reqOk = true) :
    (getPot16 a e o ch).1.potValues
        = Function.update a.potValues ch
            (hookSwitch (a.potValues ch) (a.hooks ch) (potDecode (rawOf o))).1
  ∧ (getPot16 a e o ch).1.hooks
        = Function.update a.hooks ch
            (hookSwitch (a.potValues ch) (a.hooks ch) (potDecode (rawOf o))).2
  ∧ (getPot16 a e o ch).2.2
        = (hookSwitch (a.potValues ch) (a.hooks ch) (potDecode (rawOf o))).1 := by
  have hb : (List.range 2).map (fun i => o.data i % 256)
      = [o.data 0 % 256, o.data 1 % 256] := rfl
  refine ⟨?_, ?_, ?_⟩ <;>
    simp [getPot16, readBytes, h1, h2, hb, rawOf, Function.update_same]

/-- Helper: when the read fails (status 10 or a transport code in the
1..99 range shifted by 100), `getPot16` leaves the whole channel state
untouched and returns the previous stored value. -/
theorem getPot16_failure_proj (a : M5w8angle) (e : Env) (o : WireOutcome) (ch : Fin 8)
    (hc : o.endCode % 256 < 100)
    (hf : ¬(o.endCode % 256 = 0 ∧ o.reqOk = true)) :
    (getPot16 a e o ch).1.potValues = a.potValues
  ∧ (getPot16 a e o ch).1.hooks = a.hooks
  ∧ (getPot16 a e o ch).2.2 = a.potValues ch := by
  by_cases h1 : o.endCode % 256 = 0
  · have h2 : o.reqOk = false := by
      cases hr : o.reqOk
      · rfl
      · exact absurd ⟨h1, hr⟩ hf
    refine ⟨?_, ?_, ?_⟩ <;> simp [getPot16, readBytes, h1, h2]
  · have hne : (o.endCode % 256 + 100) % 256 ≠ 0 := by omega
    have hne2 : (o.endCode + 100) % 256 ≠ 0 := by omega
    refine ⟨?_, ?_, ?_⟩ <;> simp [getPot16, readBytes, h1, hne, hne2]

/-- C6: in the `unhooked` state a successful read of raw value `raw`
returns `POTMAX - raw` when `raw ≤ POTMAX` and 0 when `raw > POTMAX`. -/
theorem getPot16_unhooked_decode (a : M5w8angle) (e : Env) (o : WireOutcome) (ch : Fin 8)
    (hh : a.hooks ch = HookState.unhooked)
    (h1 : o.endCode % 256 = 0) (h2 : o.reqOk = true) :
    (rawOf o ≤ POTMAX → (getPot16 a e o ch).2.2 = POTMAX - rawOf o)
  ∧ (rawOf o > POTMAX → (getPot16 a e o ch).2.2 = 0) := by
  obtain ⟨-, -, hret⟩ := getPot16_success_proj a e o ch h1 h2
  rw [hret, hh]
  constructor
  · intro hle
    simp [hookSwitch, potDecode, Nat.not_lt.mpr hle, hle]
  · intro hgt
    simp [hookSwitch, potDecode, hgt]

/-- Concrete angle device for witnesses: default address 0x43, all
channels unhooked with stored value 0. -/
def a0 : M5w8angle := ⟨⟨0x43, 0, 0, 0, 80⟩, fun _ => 0, fun _ => HookState.unhooked⟩

/-- Concrete successful outcome delivering raw bytes 0x00, 0x01 (raw
value 0x0100 = 256). -/
def oC6 : WireOutcome := ⟨0, true, fun i => if i = 0 then 0 else if i = 1 then 1 else 0⟩

/-- Witness for C6: channel 3 raw register value 0x0100 decodes to
0x0FFC - 256 = 3836 when unhooked. -/
theorem getPot16_unhooked_decode_witness :
    (getPot16 a0 e0 oC6 3).2.2 = 3836 := by
  have h := getPot16_unhooked_decode a0 e0 oC6 3 (by decide) (by decide) (by decide)
  exact (h.1 (by decide)).trans (by decide)

/-- C1: from `setHook(ch, s)` the channel is hooking at stored value `s`;
a successful read decoding below `s` moves it to `under` while `getLast`
still reports `s`, and a later decode at or above `s` stores that value
and unhooks; symmetrically for a first decode above `s` (`over`) and a
later decode at or below `s`; a first decode equal to `s` unhooks at
once and stores it. -/
theorem hook_state_machine (a : M5w8angle) (eA eB : Env) (ch : Fin 8) (s : Nat)
    (o1 o2 : WireOutcome) (hs : s < 65536)
    (h1a : o1.endCode % 256 = 0) (h1b : o1.reqOk = true)
    (h2a : o2.endCode % 256 = 0) (h2b : o2.reqOk = true) :
    (potDecode (rawOf o1) < s →
        (getPot16 (setHook a ch s) eA o1 ch).1.hooks ch = HookState.under
      ∧ getLast (getPot16 (setHook a ch s) eA o1 ch).1 ch = s
      ∧ (s ≤ potDecode (rawOf o2) →
          (getPot16 (getPot16 (setHook a ch s) eA o1 ch).1 eB o2 ch).1.potValues ch
              = potDecode (rawOf o2)
        ∧ (getPot16 (getPot16 (setHook a ch s) eA o1 ch).1 eB o2 ch).1.hooks ch
              = HookState.unhooked))
  ∧ (potDecode (rawOf o1) > s →
        (getPot16 (setHook a ch s) eA o1 ch).1.hooks ch = HookState.over
      ∧ getLast (getPot16 (setHook a ch s) eA o1 ch).1 ch = s
      ∧ (potDecode (rawOf o2) ≤ s →
          (getPot16 (getPot16 (setHook a ch s) eA o1 ch).1 eB o2 ch).1.potValues ch
              = potDecode (rawOf o2)
        ∧ (getPot16 (getPot16 (setHook a ch s) eA o1 ch).1 eB o2 ch).1.hooks ch
              = HookState.unhooked))
  ∧ (potDecode (rawOf o1) = s →
        (getPot16 (setHook a ch s) eA o1 ch).1.hooks ch = HookState.unhooked
      ∧ (getPot16 (setHook a ch s) eA o1 ch).1.potValues ch = potDecode (rawOf o1)) := by
  have hs0 : (setHook a ch s).potValues ch = s := by
    simp [setHook, Function.update_same, Nat.mod_eq_of_lt hs]
  have hh0 : (setHook a ch s).hooks ch = HookState.hooking := by
    simp [setHook, Function.update_same]
  obtain ⟨hp1, hh1, -⟩ := getPot16_success_proj (setHook a ch s) eA o1 ch h1a h1b
  refine ⟨?_, ?_, ?_⟩
  · intro hv1
    have hstep : hookSwitch ((setHook a ch s).potValues ch)
        ((setHook a ch s).hooks ch) (potDecode (rawOf o1)) = (s, HookState.under) := by
      rw [hs0, hh0]
      simp [hookSwitch, hv1]
    have hA1p : (getPot16 (setHook a ch s) eA o1 ch).1.potValues ch = s := by
      rw [hp1, hstep, Function.update_same]
    have hA1h : (getPot16 (setHook a ch s) eA o1 ch).1.hooks ch = HookState.under := by
      rw [hh1, hstep, Function.update_same]
    refine ⟨hA1h, hA1p, ?_⟩
    intro hv2
    obtain ⟨hp2, hh2, -⟩ :=
      getPot16_success_proj (getPot16 (setHook a ch s) eA o1 ch).1 eB o2 ch h2a h2b
    have hstep2 : hookSwitch ((getPot16 (setHook a ch s) eA o1 ch).1.potValues ch)
        ((getPot16 (setHook a ch s) eA o1 ch).1.hooks ch) (potDecode (rawOf o2))
          = (potDecode (rawOf o2), HookState.unhooked) := by
      rw [hA1p, hA1h]
      simp [hookSwitch, hv2]
    constructor
    · rw [hp2, hstep2, Function.update_same]
    · rw [hh2, hstep2, Function.update_same]
  · intro hv1
    have hstep : hookSwitch ((setHook a ch s).potValues ch)
        ((setHook a ch s).hooks ch) (potDecode (rawOf o1)) = (s, HookState.over) := by
      rw [hs0, hh0]
      simp [hookSwitch, hv1, Nat.lt_asymm hv1]
    have hA1p : (getPot16 (setHook a ch s) eA o1 ch).1.potValues ch = s := by
      rw [hp1, hstep, Function.update_same]
    have hA1h : (getPot16 (setHook a ch s) eA o1 ch).1.hooks ch = HookState.over := by
      rw [hh1, hstep, Function.update_same]
    refine ⟨hA1h, hA1p, ?_⟩
    intro hv2
    obtain ⟨hp2, hh2, -⟩ :=
      getPot16_success_proj (getPot16 (setHook a ch s) eA o1 ch).1 eB o2 ch h2a h2b
    have hstep2 : hookSwitch ((getPot16 (setHook a ch s) eA o1 ch).1.potValues ch)
        ((getPot16 (setHook a ch s) eA o1 ch).1.hooks ch) (potDecode (rawOf o2))
          = (potDecode (rawOf o2), HookState.unhooked) := by
      rw [hA1p, hA1h]
      simp [hookSwitch, hv2]
    constructor
    · rw [hp2, hstep2, Function.update_same]
    · rw [hh2, hstep2, Function.update_same]
  · intro hv1
    have hstep : hookSwitch ((setHook a ch s).potValues ch)
        ((setHook a ch s).hooks ch) (potDecode (rawOf o1))
          = (potDecode (rawOf o1), HookState.unhooked) := by
      rw [hs0, hh0]
      simp [hookSwitch, hv1]
    constructor
    · rw [hh1, hstep, Function.update_same]
    · rw [hp1, hstep, Function.update_same]

/-- Concrete successful outcome decoding to 50 (raw 0x0FCA = 4042,
0x0FFC - 4042 = 50). -/
def oC1a : WireOutcome := ⟨0, true, fun i => if i = 0 then 202 else if i = 1 then 15 else 0⟩

/-- Concrete successful outcome decoding to 200 (raw 0x0F34 = 3892). -/
def oC1b : WireOutcome := ⟨0, true, fun i => if i = 0 then 52 else if i = 1 then 15 else 0⟩

/-- Witness for C1: hook at 100, read decoding to 50 pins the value at
100 in state `under`; a later read decoding to 200 stores 200 and
unhooks. -/
theorem hook_state_machine_witness :
    (getPot16 (setHook a0 2 100) e0 oC1a 2).1.hooks 2 = HookState.under
  ∧ getLast (getPot16 (setHook a0 2 100) e0 oC1a 2).1 2 = 100
  ∧ (getPot16 (getPot16 (setHook a0 2 100) e0 oC1a 2).1 e0 oC1b 2).1.potValues 2
      = potDecode (rawOf oC1b)
  ∧ (getPot16 (getPot16 (setHook a0 2 100) e0 oC1a 2).1 e0 oC1b 2).1.hooks 2
      = HookState.unhooked := by
  have h := hook_state_machine a0 e0 e0 2 100 oC1a oC1b
    (by decide) (by decide) (by decide) (by decide) (by decide)
  have h1 := h.1 (by decide)
  exact ⟨h1.1, h1.2.1, (h1.2.2 (by decide)).1, (h1.2.2 (by decide)).2⟩

/-- C7: `potValues[ch]` either stays unchanged by a `getPot16` call or
takes exactly the freshly decoded value on a transition the hook rule
accepts (which also unhooks the channel); in particular a failed
register read (transport code in the 1..99 range or refused data
request) leaves every stored value untouched and silently returns the
previous one. -/
theorem potValue_filter_invariant (a : M5w8angle) (e : Env) (o : WireOutcome)
    (ch : Fin 8) (hc : o.endCode % 256 < 100) :
    ((getPot16 a e o ch).1.potValues ch = a.potValues ch
      ∨ ((getPot16 a e o ch).1.potValues ch = potDecode (rawOf o)
        ∧ (getPot16 a e o ch).1.hooks ch = HookState.unhooked))
  ∧ (¬(o.endCode % 256 = 0 ∧ o.reqOk = true) →
        (getPot16 a e o ch).1.potValues = a.potValues
      ∧ (getPot16 a e o ch).2.2 = a.potValues ch) := by
  constructor
  · by_cases hok : o.endCode % 256 = 0 ∧ o.reqOk = true
    · obtain ⟨hp, hh, -⟩ := getPot16_success_proj a e o ch hok.1 hok.2
      rw [hp, hh, Function.update_same, Function.update_same]
      cases hkk : a.hooks ch <;> simp [hookSwitch] <;> split_ifs <;> simp
    · obtain ⟨hp, -, -⟩ := getPot16_failure_proj a e o ch hc hok
      rw [hp]
      exact Or.inl rfl
  · intro hf
    obtain ⟨hp, -, hr⟩ := getPot16_failure_proj a e o ch hc hf
    exact ⟨hp, hr⟩

/-- Witness for C7: a read with transport failure changes nothing and
returns the stored value. -/
theorem potValue_filter_invariant_witness :
    (getPot16 a0 e0 oT 1).1.potValues = a0.potValues
  ∧ (getPot16 a0 e0 oT 1).2.2 = a0.potValues 1 := by
  exact (potValue_filter_invariant a0 e0 oT 1 (by decide)).2 (by decide)

/-- Concrete register file for the button-bitmap evaluation: the button
register of channel 0 (0x50) reads 0 (pressed); every other register,
including 0x4F, reads 1 (released / non-zero). -/
def regsC4 : Nat → Nat := fun r => if r = 0x50 then 0 else 1

/-- C4 evaluation: with channel 0 pressed and channels 1..7 released, the
bitmap branch of `getButton` returns 0 instead of the expected bitmap
0x01, because each of its 8 iterations reads register 0x50 + ch = 0x4F
(`ch` is -1 in that branch) rather than 0x50 + i; the single-channel
branch confirms channel 0 reads as pressed. -/
theorem getButton_bitmap_defect :
    getButton u0 e0 regsC4 (-1) = 0
  ∧ getButton u0 e0 regsC4 0 = 1
  ∧ regsC4 0x50 = 0
  ∧ regsC4 0x4F = 1 := by
  refine ⟨by decide, by decide, by decide, by decide⟩

set_option maxRecDepth 40000 in
/-- Exhaustive 8-bit check of the two `resetCounts` loops: the computed
start register is 0x40 plus the trailing-zero count, the byte list is
one byte per position from the lowest set bit for its whole length
(1 where the bit is set, 0 otherwise), its bytes are already reduced mod
256, the trailing-zero count marks the lowest set bit, the list is
non-empty and ends at the highest set bit within the 8-bit range. -/
theorem resetCounts_pure : ∀ mask : Nat, mask < 256 → mask ≠ 0 →
    (stripTrailingZeros 8 mask 0x40).2 = 0x40 + trailingZeros8 8 mask
  ∧ trailingZeros8 8 mask < 8
  ∧ buildChList 8 (stripTrailingZeros 8 mask 0x40).1
      = (List.range (resetPayloadLen mask)).map
          (fun j => if mask.testBit (trailingZeros8 8 mask + j) then 1 else 0)
  ∧ (buildChList 8 (stripTrailingZeros 8 mask 0x40).1).map (fun b => b % 256)
      = buildChList 8 (stripTrailingZeros 8 mask 0x40).1
  ∧ (∀ i, i < trailingZeros8 8 mask → mask.testBit i = false)
  ∧ mask.testBit (trailingZeros8 8 mask) = true
  ∧ 0 < resetPayloadLen mask
  ∧ mask.testBit (trailingZeros8 8 mask + resetPayloadLen mask - 1) = true
  ∧ (∀ i, i < 8 → trailingZeros8 8 mask + resetPayloadLen mask ≤ i →
      mask.testBit i = false) := by
  decide

/-- C2: for a non-zero 8-bit mask, `resetCounts` issues exactly one
framed write whose start register is 0x40 plus the trailing-zero count
of the mask, whose payload holds one byte per bit position from the
lowest through the highest set bit (1 where the bit is set, 0 where it
is not); a zero mask issues no bus transaction. -/
theorem resetCounts_protocol (u : M5wUnit) (e : Env) (c : Nat) (mask : Nat)
    (hm : mask < 256) (h0 : mask ≠ 0) :
    (resetCounts u e c mask).txns
        = [⟨u.addr % 256, 0x40 + trailingZeros8 8 mask,
            (List.range (resetPayloadLen mask)).map
              (fun j => if mask.testBit (trailingZeros8 8 mask + j) then 1 else 0)⟩]
  ∧ (∀ i, i < trailingZeros8 8 mask → mask.testBit i = false)
  ∧ mask.testBit (trailingZeros8 8 mask) = true
  ∧ 0 < resetPayloadLen mask
  ∧ mask.testBit (trailingZeros8 8 mask + resetPayloadLen mask - 1) = true
  ∧ (∀ i, trailingZeros8 8 mask + resetPayloadLen mask ≤ i → mask.testBit i = false)
  ∧ (resetCounts u e c 0).txns = [] := by
  obtain ⟨hreg, htlt, hlist, hmap, hlow, hbit, hpos, hhigh, hup⟩ :=
    resetCounts_pure mask hm h0
  have hmm : mask % 256 = mask := Nat.mod_eq_of_lt hm
  refine ⟨?_, hlow, hbit, hpos, hhigh, ?_, ?_⟩
  · have hr256 : (0x40 + trailingZeros8 8 mask) % 256 = 0x40 + trailingZeros8 8 mask := by
      omega
    simp only [resetCounts, hmm, h0, if_pos, ne_eq, not_false_eq_true, writeBytes,
      List.take_length]
    rw [hmap, hlist, hreg, hr256]
  · intro i hi
    by_cases h8 : i < 8
    · exact hup i h8 hi
    · have h2i : (256 : Nat) ≤ 2 ^ i := by
        calc (256 : Nat) = 2 ^ 8 := by norm_num
        _ ≤ 2 ^ i := Nat.pow_le_pow_right (by omega) (by omega)
      exact Nat.testBit_eq_false_of_lt (by omega)
  · simp [resetCounts]

/-- Witness for C2: mask 0b00000101 produces one write at register 0x40
with payload bytes 1, 0, 1, and mask 0 produces no transaction. -/
theorem resetCounts_protocol_witness :
    (resetCounts u0 e0 0 5).txns = [⟨0x41, 0x40, [1, 0, 1]⟩]
  ∧ (resetCounts u0 e0 0 0).txns = [] := by
  have h := resetCounts_protocol u0 e0 0 5 (by decide) (by decide)
  exact ⟨h.1.trans (by decide), h.2.2.2.2.2.2⟩

/-- Helper: the 32-bit wrapping subtraction used by `addDelayIfNeeded`
recovers the true elapsed time whenever it is below the modulus, even
across counter wrap. -/
theorem wrapDiff (L el M : Nat) (hM : 0 < M) (he : el < M) :
    ((L + el) % M + M - L % M) % M = el := by
  have ha : L % M < M := Nat.mod_lt _ hM
  rw [Nat.add_mod, Nat.mod_eq_of_lt he]
  rcases Nat.lt_or_ge (L % M + el) M with hlt | hge
  · rw [Nat.mod_eq_of_lt hlt]
    have h1 : L % M + el + M - L % M = el + M := by omega
    rw [h1, Nat.add_mod_right, Nat.mod_eq_of_lt he]
  · have h2 : (L % M + el) % M = L % M + el - M := by
      rw [Nat.mod_eq_sub_mod hge, Nat.mod_eq_of_lt (by omega)]
    rw [h2]
    have h3 : L % M + el - M + M - L % M = el := by omega
    rw [h3, Nat.mod_eq_of_lt he]

/-- Helper: when the true time elapsed since the recorded LED timestamp
is below `LEDdelay`, the gate blocks the caller for exactly the
remaining difference. -/
theorem addDelay_time (u : M5wUnit) (e : Env) (L elapsed : Nat)
    (hL : u.lastLEDtime % 4294967296 = L % 4294967296)
    (hT : e.time = L + elapsed)
    (hE : elapsed < u.LEDdelay) (hD : u.LEDdelay < 4294967296) :
    (addDelayIfNeeded u e).time = e.time + (u.LEDdelay - elapsed) := by
  unfold addDelayIfNeeded micros
  have hdiff : ((L + elapsed) % 4294967296 + 4294967296 - L % 4294967296) % 4294967296
      = elapsed := wrapDiff L elapsed 4294967296 (by omega) (by omega)
  simp only [hT, hL, hdiff, if_pos hE]

/-- Helper: every branch of `readBytes` dispatches its bus transaction at
the time the delay gate releases, and none of them touches
`lastLEDtime`. -/
theorem readBytes_gate_shape (u : M5wUnit) (e : Env) (o : WireOutcome)
    (reg : Nat) (buf : List Nat) (n : Nat) :
    (readBytes u e o reg buf n).dispatchTime = (addDelayIfNeeded u e).time
  ∧ (readBytes u e o reg buf n).unit.lastLEDtime = u.lastLEDtime := by
  unfold readBytes
  by_cases h1 : o.endCode % 256 = 0 <;> by_cases h2 : o.reqOk <;> simp [h1, h2]

/-- C10: a `readBytes` call — the primitive that every read-based
operation (`getByte`, `getLong`, `getPot16`, `getCount`, `getIncrement`,
`getButton`, `getSwitch`) goes through — applies the LED inter-write
delay gate before dispatching its transaction: when less than `LEDdelay`
has elapsed since the last LED write, the caller is blocked for exactly
the remainder; and no read ever updates `lastLEDtime`. -/
theorem readBytes_applies_led_gate (u : M5wUnit) (e : Env) (o : WireOutcome)
    (reg : Nat) (buf : List Nat) (n : Nat) (L elapsed : Nat)
    (hL : u.lastLEDtime = L % 4294967296)
    (hT : e.time = L + elapsed)
    (hE : elapsed < u.LEDdelay) (hD : u.LEDdelay < 4294967296) :
    (readBytes u e o reg buf n).dispatchTime = e.time + (u.LEDdelay - elapsed)
  ∧ (readBytes u e o reg buf n).unit.lastLEDtime = u.lastLEDtime := by
  obtain ⟨hdis, hlast⟩ := readBytes_gate_shape u e o reg buf n
  have hL2 : u.lastLEDtime % 4294967296 = L % 4294967296 := by
    rw [hL]
    omega
  exact ⟨hdis.trans (addDelay_time u e L elapsed hL2 hT hE hD), hlast⟩

/-- Witness for C10: with the LED timestamp at 0 and a read issued 30
microseconds later, the read's dispatch is pushed to 80 (the default
`LEDdelay`), and `lastLEDtime` is untouched. -/
theorem readBytes_applies_led_gate_witness :
    (readBytes u0 ⟨30⟩ oT 5 [] 1).dispatchTime = (⟨30⟩ : Env).time + (u0.LEDdelay - 30)
  ∧ (readBytes u0 ⟨30⟩ oT 5 [] 1).unit.lastLEDtime = u0.lastLEDtime := by
  exact readBytes_applies_led_gate u0 ⟨30⟩ oT 5 [] 1 0 30
    (by decide) (by decide) (by decide) (by decide)

/-- Helper: shape of a `writeLED` call on the angle device — the write is
dispatched when the gate releases, the recorded LED timestamp is the
clock (mod 2^32) at that moment, and the configured delay is preserved. -/
theorem writeLED_shape (a : M5w8angle) (e : Env) (c led col : Nat) :
    (writeLED a e c led col).2.env = addDelayIfNeeded a.unit e
  ∧ (writeLED a e c led col).2.dispatchTime = (addDelayIfNeeded a.unit e).time
  ∧ (writeLED a e c led col).1.unit.lastLEDtime = micros (addDelayIfNeeded a.unit e)
  ∧ (writeLED a e c led col).1.unit.LEDdelay = a.unit.LEDdelay := by
  simp [writeLED, writeBytes]

/-- C5: when a second `writeLED` on the same device starts `elapsed`
microseconds (less than `LEDdelay`) after the first one recorded its
timestamp, the second call's bus transaction is dispatched exactly
`LEDdelay - elapsed` later than its start, i.e. the caller is blocked
for the remainder of the interval; and `lastLEDtime` is set to the
current time on every LED write and on no plain register write. -/
theorem writeLED_interwrite_delay (a : M5w8angle) (e : Env)
    (c1 c2 led1 led2 col1 col2 elapsed : Nat)
    (hD : a.unit.LEDdelay < 4294967296) (hE : elapsed < a.unit.LEDdelay) :
    (writeLED (writeLED a e c1 led1 col1).1
        ⟨(writeLED a e c1 led1 col1).2.env.time + elapsed⟩ c2 led2 col2).2.dispatchTime
      = ((writeLED a e c1 led1 col1).2.env.time + elapsed)
        + (a.unit.LEDdelay - elapsed)
  ∧ (∀ (a2 : M5w8angle) (e2 : Env) (c led col : Nat),
      (writeLED a2 e2 c led col).1.unit.lastLEDtime
        = micros (writeLED a2 e2 c led col).2.env)
  ∧ (∀ (u : M5wUnit) (e2 : Env) (c reg n : Nat) (v : List Nat),
      (writeBytes u e2 c reg v n).unit.lastLEDtime = u.lastLEDtime) := by
  refine ⟨?_, ?_, ?_⟩
  · obtain ⟨henv1, -, hlast1, hdel1⟩ := writeLED_shape a e c1 led1 col1
    obtain ⟨-, hdis2, -, -⟩ := writeLED_shape (writeLED a e c1 led1 col1).1
      ⟨(writeLED a e c1 led1 col1).2.env.time + elapsed⟩ c2 led2 col2
    rw [hdis2]
    have hL2 : (writeLED a e c1 led1 col1).1.unit.lastLEDtime % 4294967296
        = (writeLED a e c1 led1 col1).2.env.time % 4294967296 := by
      rw [hlast1, henv1]
      unfold micros
      omega
    have h := addDelay_time (writeLED a e c1 led1 col1).1.unit
      ⟨(writeLED a e c1 led1 col1).2.env.time + elapsed⟩
      ((writeLED a e c1 led1 col1).2.env.time) elapsed hL2 rfl
      (by rw [hdel1]; exact hE) (by rw [hdel1]; exact hD)
    rw [h, hdel1]
  · intro a2 e2 c led col
    obtain ⟨henv, -, hlast, -⟩ := writeLED_shape a2 e2 c led col
    rw [hlast, henv]
  · intro u e2 c reg n v
    simp [writeBytes]

/-- Witness for C5: two LED writes 30 microseconds apart on a device with
the default 80-microsecond spacing delay the second dispatch by 50. -/
theorem writeLED_interwrite_delay_witness :
    (writeLED (writeLED a0 e0 0 1 3).1
        ⟨(writeLED a0 e0 0 1 3).2.env.time + 30⟩ 2 4 6).2.dispatchTime
      = ((writeLED a0 e0 0 1 3).2.env.time + 30) + (a0.unit.LEDdelay - 30) := by
  exact (writeLED_interwrite_delay a0 e0 0 2 1 4 3 6 30 (by decide) (by decide)).1

/-- Concrete simulated device for the round-trip witness: sits at the
encoder default address 0x41 with every register reading 7. -/
def d0 : SimDevice := ⟨0x41, fun _ => 7⟩

/-- C8: `setAddress(newAddr)` issues the one-byte write of `newAddr` to
register 0xFF targeted at the old stored address, and updates the local
stored address to `newAddr` unconditionally — the bus status `c` is
arbitrary, covering failed writes, with no rollback; on a simulated
device whose 0xFF register reflects the write, a subsequent
`getAddress()` returns `newAddr`. -/
theorem setAddress_roundtrip (u : M5wUnit) (e eR : Env) (c newAddr : Nat)
    (d : SimDevice) (hu : u.addr < 256) (hn : newAddr < 256)
    (hd : d.address = u.addr) :
    (setAddress u e c newAddr).txns = [⟨u.addr, 0xFF, [newAddr]⟩]
  ∧ (setAddress u e c newAddr).unit.addr = newAddr
  ∧ getAddressFrom (setAddress u e c newAddr).unit eR
      (applyTxn d ⟨u.addr, 0xFF, [newAddr]⟩) = newAddr := by
  have hmu : u.addr % 256 = u.addr := Nat.mod_eq_of_lt hu
  have hmn : newAddr % 256 = newAddr := Nat.mod_eq_of_lt hn
  refine ⟨?_, ?_, ?_⟩
  · simp [setAddress, writeBytes, hmu, hmn]
  · simp [setAddress, writeBytes, hmn]
  · have hdev : applyTxn d ⟨u.addr, 0xFF, [newAddr]⟩
        = { address := newAddr, regs := fun r =>
            if 0xFF ≤ r ∧ r < 0xFF + 1 then newAddr else d.regs r } := by
      simp [applyTxn, hd]
      funext r
      by_cases hr : 255 ≤ r ∧ r < 256
      · have h255 : r = 255 := by omega
        subst h255
        simp
      · simp [hr]
    have haddr : (setAddress u e c newAddr).unit.addr = newAddr := by
      simp [setAddress, writeBytes, hmn]
    rw [hdev]
    unfold getAddressFrom deviceOutcome
    rw [haddr]
    simp [getByte, readBytes, hmn]

/-- Witness for C8: changing the address from 0x41 to 0x47 (with an
arbitrary, here failing, bus status 3) updates the local address, and
reading back register 0xFF from the simulated device returns 0x47. -/
theorem setAddress_roundtrip_witness :
    (setAddress u0 e0 3 0x47).unit.addr = 0x47
  ∧ getAddressFrom (setAddress u0 e0 3 0x47).unit e0
      (applyTxn d0 ⟨u0.addr, 0xFF, [0x47]⟩) = 0x47 := by
  have h := setAddress_roundtrip u0 e0 e0 3 0x47 d0 (by decide) (by decide) (by decide)
  exact ⟨h.2.1, h.2.2⟩
